import Mathlib

/-
Verification development for the DWARF function-descriptor extraction tool
(src/dwarf_analysis.py).  The Python source is shallowly embedded below:
pure helpers become Lean functions, the Python assert statements become an
explicit error type, the absence of an optional attribute becomes Option,
and the pathlib PurePath objects become a parts-list model.  The global ELF
handle used by get_function_symtab_index is passed explicitly as a symbol
table argument, as the spec itself recommends.
-/

deriving instance DecidableEq for Except

/-! ## String constants used by the source -/

def dwAtName : String := "DW_AT_name"

def dwAtDeclFile : String := "DW_AT_decl_file"

def dwAtDeclLine : String := "DW_AT_decl_line"

def dwAtLowPc : String := "DW_AT_low_pc"

def dwTagSubprogram : String := "DW_TAG_subprogram"

def cuTagStr : String := "DW_TAG_compile_unit"

def sttFunc : String := "STT_FUNC"

def dotdotStr : String := ".."

def dotStr : String := "."

def slashStr : String := "/"

def emptyStr : String := ""

/-! ## UTF-8 decoding, modelling Python bytes.decode

The source decodes every byte string with codec utf-8 and errors=ignore:
invalid maximal subparts are dropped.  utf8DecodeOne recognises one valid
UTF-8 sequence at the head of the byte list; utf8SkipLen is the length of
the maximal invalid subpart consumed by the error handler. -/

def contOk (b : Nat) : Bool := 0x80 ≤ b && b ≤ 0xBF

def cont1Ok3 (b b1 : Nat) : Bool :=
  if b = 0xE0 then 0xA0 ≤ b1 && b1 ≤ 0xBF
  else if b = 0xED then 0x80 ≤ b1 && b1 ≤ 0x9F
  else contOk b1

def cont1Ok4 (b b1 : Nat) : Bool :=
  if b = 0xF0 then 0x90 ≤ b1 && b1 ≤ 0xBF
  else if b = 0xF4 then 0x80 ≤ b1 && b1 ≤ 0x8F
  else contOk b1

def utf8DecodeOne (b : Nat) (rest : List Nat) : Option (Char × List Nat) :=
  if b ≤ 0x7F then some (Char.ofNat b, rest)
  else if 0xC2 ≤ b && b ≤ 0xDF then
    match rest with
    | b1 :: r => if contOk b1 then some (Char.ofNat ((b - 0xC0) * 0x40 + (b1 - 0x80)), r) else none
    | [] => none
  else if 0xE0 ≤ b && b ≤ 0xEF then
    match rest with
    | b1 :: b2 :: r =>
      if cont1Ok3 b b1 && contOk b2 then
        some (Char.ofNat ((b - 0xE0) * 0x1000 + (b1 - 0x80) * 0x40 + (b2 - 0x80)), r)
      else none
    | _ => none
  else if 0xF0 ≤ b && b ≤ 0xF4 then
    match rest with
    | b1 :: b2 :: b3 :: r =>
      if cont1Ok4 b b1 && contOk b2 && contOk b3 then
        some (Char.ofNat ((b - 0xF0) * 0x40000 + (b1 - 0x80) * 0x1000 +
          (b2 - 0x80) * 0x40 + (b3 - 0x80)), r)
      else none
    | _ => none
  else none

def utf8SkipLen (b : Nat) (rest : List Nat) : Nat :=
  if 0xE0 ≤ b && b ≤ 0xEF then
    match rest with
    | b1 :: _ => if cont1Ok3 b b1 then 2 else 1
    | [] => 1
  else if 0xF0 ≤ b && b ≤ 0xF4 then
    match rest with
    | b1 :: b2 :: _ => if cont1Ok4 b b1 then (if contOk b2 then 3 else 2) else 1
    | [b1] => if cont1Ok4 b b1 then 2 else 1
    | [] => 1
  else 1

/-- Fueled decode with errors=ignore (invalid maximal subparts dropped).
One unit of fuel is spent per decoded or skipped sequence; every step
consumes at least one byte, so fuel equal to the byte count suffices. -/
def utf8IgnoreAux (fuel : Nat) (bs : List Nat) : List Char :=
  match bs with
  | [] => []
  | b :: rest =>
    match fuel with
    | 0 => []
    | n + 1 =>
      match utf8DecodeOne b rest with
      | some (c, r) => c :: utf8IgnoreAux n r
      | none => utf8IgnoreAux n (rest.drop (utf8SkipLen b rest - 1))

def utf8Ignore (bs : List Nat) : List Char := utf8IgnoreAux bs.length bs

/-- Fueled decode with errors=strict (fails on the first invalid sequence);
reference decoder used to state that the source decodes UTF-8 correctly on
valid input. -/
def utf8StrictAux (fuel : Nat) (bs : List Nat) : Option (List Char) :=
  match bs with
  | [] => some []
  | b :: rest =>
    match fuel with
    | 0 => none
    | n + 1 =>
      match utf8DecodeOne b rest with
      | some (c, r) => (utf8StrictAux n r).map (fun cs => c :: cs)
      | none => none

def utf8Strict (bs : List Nat) : Option (List Char) := utf8StrictAux bs.length bs

def replacementChar : Char := Char.ofNat 0xFFFD

/-- Decode following the words of the claim for desc_name: invalid UTF-8
sequences are REPLACED (each maximal invalid subpart becomes U+FFFD).
This is the comparison definition for the refinement claim; the source
itself uses errors=ignore. -/
def utf8ReplaceSpecAux (fuel : Nat) (bs : List Nat) : List Char :=
  match bs with
  | [] => []
  | b :: rest =>
    match fuel with
    | 0 => []
    | n + 1 =>
      match utf8DecodeOne b rest with
      | some (c, r) => c :: utf8ReplaceSpecAux n r
      | none => replacementChar :: utf8ReplaceSpecAux n (rest.drop (utf8SkipLen b rest - 1))

def utf8ReplaceSpec (bs : List Nat) : List Char := utf8ReplaceSpecAux bs.length bs

/-! ## PurePath model

Model of pathlib.PurePath (POSIX flavour) restricted to what the source
relies on: the parts tuple.  An absolute path stores the root marker as
its first part, exactly as PurePath.parts does.  Parsing drops empty and
single-dot segments, as PurePath normalisation does. -/

structure PurePath where
  parts : List String
deriving DecidableEq

/-- Split a character list at every slash (same cut points as the split
method of Python strings). -/
def splitSlashAux : List Char → List Char → List String
  | [], acc => [String.mk acc.reverse]
  | c :: cs, acc =>
    if c = '/' then String.mk acc.reverse :: splitSlashAux cs []
    else splitSlashAux cs (c :: acc)

def PurePath.ofString (s : String) : PurePath :=
  let segs := (splitSlashAux s.data []).filter (fun t => t ≠ emptyStr && t ≠ dotStr)
  match s.data with
  | c :: _ => if c = '/' then ⟨slashStr :: segs⟩ else ⟨segs⟩
  | [] => ⟨segs⟩

/-- The slash operator of PurePath: if the right operand is absolute it
replaces the left one, otherwise the parts are appended. -/
def PurePath.div (a b : PurePath) : PurePath :=
  match b.parts with
  | s :: _ => if s = slashStr then b else ⟨a.parts ++ b.parts⟩
  | [] => ⟨a.parts ++ b.parts⟩

def pathOfBytes (bs : List Nat) : PurePath := PurePath.ofString (String.mk (utf8Ignore bs))

/-! ## clean_relative_path

The Python function recurses: if the parts tuple is nonempty and its head
differs from the dot-dot segment the path is returned, otherwise it
recurses on the tail.  On a path all of whose parts are dot-dot (the empty
path included) the recursion never reaches a base case: rebuilding from an
empty tuple yields the empty tuple again, so Python exceeds its recursion
limit.  The embedding makes the recursion depth explicit with fuel; the
wrapper supplies fuel parts.length + 1, which is shown sufficient for
every terminating run (clean_fuel_sufficient below), so the wrapper
returns none exactly on the inputs where the Python function never
returns. -/
def clean_fuel : Nat → PurePath → Option PurePath
  | 0, _ => none
  | n + 1, p =>
    match p.parts with
    | [] => clean_fuel n (PurePath.mk [])
    | s :: rest => if s = dotdotStr then clean_fuel n (PurePath.mk rest) else some p

def clean_relative_path (p : PurePath) : Option PurePath :=
  clean_fuel (p.parts.length + 1) p

/-- Termination of the Python recursion on a given input: some recursion
depth suffices to produce a value. -/
def CleanTerminates (p : PurePath) : Prop := ∃ n, (clean_fuel n p).isSome = true

/-! ## Attribute values, DIEs and the attribute decoders -/

/-- A raw DWARF attribute value as the external reader hands it over:
either a byte string or an unsigned integer. -/
inductive AttrValue where
  | bytes (bs : List Nat)
  | nat (n : Nat)
deriving DecidableEq

/-- Python truthiness of a raw attribute value: zero and the empty byte
string are falsy. -/
def AttrValue.truthy : AttrValue → Bool
  | .nat n => n ≠ 0
  | .bytes bs => bs ≠ []

/-- Python equality between a raw attribute value and an integer symbol
address: an int compares equal to an equal int and unequal to bytes. -/
def AttrValue.matchesNat : AttrValue → Nat → Bool
  | .nat n, m => n = m
  | .bytes _, _ => false

structure FileEntry where
  name : List Nat
  dir_index : Nat
deriving DecidableEq

structure LineProgramHeader where
  version : Nat
  file_entry : List FileEntry
  include_directory : List (List Nat)
deriving DecidableEq

/-- A debugging information entry together with the line program of its
compilation unit (reached in the source through die.cu.dwarfinfo). -/
structure DIE where
  tag : String
  attributes : List (String × AttrValue)
  lineProgram : LineProgramHeader
deriving DecidableEq

/-- The assertion failures and exceptions the source can raise, named after
the error taxonomy of the spec.  typeMismatch stands for the Python
TypeError/AttributeError raised when a raw value has the wrong type;
recursionLimit for the RecursionError of a non-terminating
clean_relative_path call. -/
inductive AnalysisError where
  | indexOutOfRange
  | ambiguousSymbolMatch
  | missingRequiredAttribute
  | notAFunction
  | typeMismatch
  | recursionLimit
deriving DecidableEq

/-- desc_name: require DW_AT_name, then decode the bytes with utf-8 and
errors=ignore. -/
def desc_name (die : DIE) : Except AnalysisError (Option String) :=
  match die.attributes.lookup dwAtName with
  | none => .ok none
  | some (AttrValue.nat _) => .error AnalysisError.typeMismatch
  | some (AttrValue.bytes bs) => .ok (some (String.mk (utf8Ignore bs)))

/-- desc_line: require DW_AT_decl_line, return the raw value as-is. -/
def desc_line (die : DIE) : Option AttrValue :=
  die.attributes.lookup dwAtDeclLine

/-- desc_addr: require DW_AT_low_pc, return the raw value as-is. -/
def desc_addr (die : DIE) : Option AttrValue :=
  die.attributes.lookup dwAtLowPc

/-- The version-dependent table offset of desc_file: filename/dirname
arrays are 0-based in DWARF v5, 1-based before. -/
def lpOffset (lp : LineProgramHeader) : Int := if lp.version ≥ 5 then 0 else -1

/-- desc_file: require DW_AT_decl_file; add the version offset to the file
index, assert bounds, fetch the file entry; add the offset to its
directory index, assert bounds, fetch the directory; return directory
slash file name. -/
def desc_file (die : DIE) : Except AnalysisError (Option PurePath) :=
  match die.attributes.lookup dwAtDeclFile with
  | none => .ok none
  | some (AttrValue.bytes _) => .error AnalysisError.typeMismatch
  | some (AttrValue.nat v) =>
    if 0 ≤ lpOffset die.lineProgram + (v : Int) ∧
        lpOffset die.lineProgram + (v : Int) < (die.lineProgram.file_entry.length : Int) then
      match die.lineProgram.file_entry[(lpOffset die.lineProgram + (v : Int)).toNat]? with
      | none => .error AnalysisError.indexOutOfRange
      | some fe =>
        if 0 ≤ lpOffset die.lineProgram + (fe.dir_index : Int) ∧
            lpOffset die.lineProgram + (fe.dir_index : Int) <
              (die.lineProgram.include_directory.length : Int) then
          match die.lineProgram.include_directory[(lpOffset die.lineProgram +
              (fe.dir_index : Int)).toNat]? with
          | none => .error AnalysisError.indexOutOfRange
          | some d => .ok (some (PurePath.div (pathOfBytes d) (pathOfBytes fe.name)))
        else .error AnalysisError.indexOutOfRange
    else .error AnalysisError.indexOutOfRange

def die_is_func (die : DIE) : Bool := die.tag = dwTagSubprogram

/-! ## SymbolTableEntry table lookup -/

structure SymbolTableEntry where
  name : String
  st_value : Nat
  st_info_type : String
deriving DecidableEq

/-- Python truthiness of the found variable in get_function_symtab_index:
None is falsy, and so is the integer 0. -/
def optNatTruthy : Option Nat → Bool
  | none => false
  | some n => n ≠ 0

/-- The scan loop of get_function_symtab_index: walk the table in order,
skip non-function entries, record a (name, address) match, and assert
(not found) before overwriting a previous match. -/
def symtab_scan (function : String) (address : AttrValue) :
    List SymbolTableEntry → Nat → Option Nat → Except AnalysisError (Option Nat)
  | [], _, found => .ok found
  | sym :: rest, i, found =>
    if sym.st_info_type ≠ sttFunc then symtab_scan function address rest (i + 1) found
    else if sym.name = function ∧ AttrValue.matchesNat address sym.st_value then
      if optNatTruthy found then .error AnalysisError.ambiguousSymbolMatch
      else symtab_scan function address rest (i + 1) (some i)
    else symtab_scan function address rest (i + 1) found

def get_function_symtab_index (symtab : List SymbolTableEntry) (function : String)
    (address : AttrValue) : Except AnalysisError (Option Nat) :=
  symtab_scan function address symtab 0 none

/-! ## Function descriptor builder and compilation unit walker -/

structure FunctionDescriptor where
  name : String
  file : PurePath
  line : AttrValue
  addr : AttrValue
  symbol_index : Option Nat
deriving DecidableEq

/-- The optional base-path prefixing step of get_function_information:
applied only when base_path is truthy. -/
def prefixedPath (base_path : String) (p : PurePath) : PurePath :=
  if base_path ≠ emptyStr then PurePath.div (PurePath.ofString base_path) p else p

/-- get_function_information: assert the DIE is a subprogram; decode the
name; return early when an active name filter does not match; resolve
file, line and address; emit a descriptor only when all four decoded
values are Python-truthy (the match on the four options together with the
truthiness test is exactly the all-of-four gate of the source, a PurePath
being always truthy). -/
def get_function_information (symtab : List SymbolTableEntry) (die : DIE)
    (base_path filter_function_name : String) :
    Except AnalysisError (Option FunctionDescriptor) :=
  if die_is_func die then
    match desc_name die with
    | .error e => .error e
    | .ok nameOpt =>
      if filter_function_name ≠ emptyStr ∧ nameOpt ≠ some filter_function_name then .ok none
      else
        match desc_file die with
        | .error e => .error e
        | .ok fileOpt =>
          match nameOpt, fileOpt, desc_line die, desc_addr die with
          | some name, some file, some line, some addr =>
            if name ≠ emptyStr ∧ AttrValue.truthy line ∧ AttrValue.truthy addr then
              match clean_relative_path file with
              | none => .error AnalysisError.recursionLimit
              | some cleaned =>
                match get_function_symtab_index symtab name addr with
                | .error e => .error e
                | .ok idx =>
                  .ok (some { name := name, file := prefixedPath base_path cleaned,
                              line := line, addr := addr, symbol_index := idx })
            else .ok none
          | _, _, _, _ => .ok none
  else .error AnalysisError.notAFunction

structure CompileUnit where
  top_die : DIE
  dies : List DIE
deriving DecidableEq

def walk_dies (symtab : List SymbolTableEntry) (base_path filter_function_name : String) :
    List DIE → Except AnalysisError (List FunctionDescriptor)
  | [] => .ok []
  | die :: rest =>
    if die_is_func die then
      match get_function_information symtab die base_path filter_function_name with
      | .error e => .error e
      | .ok none => walk_dies symtab base_path filter_function_name rest
      | .ok (some fd) =>
        match walk_dies symtab base_path filter_function_name rest with
        | .error e => .error e
        | .ok fds => .ok (fd :: fds)
    else walk_dies symtab base_path filter_function_name rest

/-- desc_cu: assert the top DIE carries DW_AT_name; decode and normalise
the unit name; return early when an active unit filter does not match;
otherwise walk every DIE of the unit and build descriptors for the
function-defining ones. -/
def desc_cu (symtab : List SymbolTableEntry) (cu : CompileUnit)
    (base_path filter_cu_name filter_function_name : String) :
    Except AnalysisError (List FunctionDescriptor) :=
  match cu.top_die.attributes.lookup dwAtName with
  | none => .error AnalysisError.missingRequiredAttribute
  | some (AttrValue.nat _) => .error AnalysisError.typeMismatch
  | some (AttrValue.bytes bs) =>
    match clean_relative_path (pathOfBytes bs) with
    | none => .error AnalysisError.recursionLimit
    | some nm =>
      if filter_cu_name ≠ emptyStr ∧ nm ≠ PurePath.ofString filter_cu_name then .ok []
      else walk_dies symtab base_path filter_function_name cu.dies

/-! ## Concrete inputs used by witnesses and counterexamples -/

/-- A subprogram DIE carrying only a name attribute with the given raw
bytes, over an empty line program. -/
def emptyLP : LineProgramHeader :=
  LineProgramHeader.mk 5 [] []

def mkNameDie (bs : List Nat) : DIE :=
  DIE.mk dwTagSubprogram [(dwAtName, AttrValue.bytes bs)] emptyLP

def mainBytes : List Nat := [109, 97, 105, 110]

def acBytes : List Nat := [97, 46, 99]

def projBytes : List Nat := [47, 112, 114, 111, 106]

def fStr : String := "f"

def fooStr : String := "foo"

def barStr : String := "bar"

def mainStr : String := "main"

def fWithInvalidByte : List Nat := [102, 255]

def fReplacedStr : String := "f�"

def abBytes : List Nat := [97, 98]

def abChars : List Char := [97, 98].map Char.ofNat

def sttNotype : String := "STT_NOTYPE"

def funcSymF : SymbolTableEntry := SymbolTableEntry.mk fStr 4096 sttFunc

def notypeSymF : SymbolTableEntry := SymbolTableEntry.mk fStr 4096 sttNotype

/-- A version-4 line program: one file entry (a.c, directory index 1) and
one include directory (/proj); legacy 1-based indexing applies. -/
def exLP4 : LineProgramHeader :=
  LineProgramHeader.mk 4 [FileEntry.mk acBytes 1] [projBytes]

def exC2fe : FileEntry := FileEntry.mk acBytes 1

def exC2die : DIE :=
  DIE.mk dwTagSubprogram [(dwAtDeclFile, AttrValue.nat 1)] exLP4

def projACStr : String := "/proj/a.c"

def exC2path : PurePath := PurePath.ofString projACStr

/-- A version-5 line program with a single file entry, used with a file
index far out of bounds. -/
def exLP5 : LineProgramHeader :=
  LineProgramHeader.mk 5 [FileEntry.mk acBytes 0] [projBytes]

def exC4die : DIE :=
  DIE.mk dwTagSubprogram [(dwAtDeclFile, AttrValue.nat 7)] exLP5

/-- A fully resolvable subprogram DIE: name main, file index 1 over the
version-4 program, line 10, low address 0x400080. -/
def exFullDie : DIE :=
  DIE.mk dwTagSubprogram
    [(dwAtName, AttrValue.bytes mainBytes),
     (dwAtDeclFile, AttrValue.nat 1),
     (dwAtDeclLine, AttrValue.nat 10),
     (dwAtLowPc, AttrValue.nat 4194432)]
    exLP4

def exMainSym : SymbolTableEntry := SymbolTableEntry.mk mainStr 4194432 sttFunc

def exFullFd : FunctionDescriptor :=
  FunctionDescriptor.mk mainStr exC2path (AttrValue.nat 10) (AttrValue.nat 4194432) (some 0)

/-- A subprogram DIE whose name decodes to foo but whose declaring-file
index is out of bounds: resolving its file would be a fatal error. -/
def exC9die : DIE :=
  DIE.mk dwTagSubprogram
    [(dwAtName, AttrValue.bytes [102, 111, 111]), (dwAtDeclFile, AttrValue.nat 7)]
    exLP5

/-- A subprogram DIE identical to exFullDie except that its declaring-line
attribute is present with raw value 0. -/
def exC10die : DIE :=
  DIE.mk dwTagSubprogram
    [(dwAtName, AttrValue.bytes mainBytes),
     (dwAtDeclFile, AttrValue.nat 1),
     (dwAtDeclLine, AttrValue.nat 0),
     (dwAtLowPc, AttrValue.nat 4194432)]
    exLP4

/-- A compilation unit whose top-level DIE has no attributes at all, in
particular no defining name. -/
def exC8cu : CompileUnit :=
  CompileUnit.mk (DIE.mk cuTagStr [] exLP4) [exFullDie]

/-! ## Lemmas about clean_relative_path -/

/-- On the empty parts tuple the recursion rebuilds the empty path and never
reaches a base case, whatever the recursion depth. -/
theorem clean_fuel_nil (n : Nat) : clean_fuel n (PurePath.mk []) = none := by
  induction n with
  | zero => rfl
  | succ n ih => simpa [clean_fuel] using ih

/-- Any value produced by the recursion has a nonempty parts tuple whose
head is not the dot-dot segment. -/
theorem clean_fuel_shape (n : Nat) (p q : PurePath) (h : clean_fuel n p = some q) :
    ∃ s rest, q.parts = s :: rest ∧ s ≠ dotdotStr := by
  induction n generalizing p with
  | zero => simp [clean_fuel] at h
  | succ n ih =>
    unfold clean_fuel at h
    split at h
    next hp =>
      rw [clean_fuel_nil] at h
      cases h
    next s rest hp =>
      by_cases hs : s = dotdotStr
      · rw [if_pos hs] at h
        exact ih (PurePath.mk rest) h
      · rw [if_neg hs] at h
        obtain rfl : p = q := Option.some.inj h
        exact ⟨s, rest, hp, hs⟩

/-- A path whose head part is not dot-dot is returned unchanged. -/
theorem clean_relative_path_fixed (p : PurePath) (s : String) (rest : List String)
    (hp : p.parts = s :: rest) (hs : s ≠ dotdotStr) : clean_relative_path p = some p := by
  show clean_fuel (p.parts.length + 1) p = some p
  rw [clean_fuel, hp]
  simp [hs]

/-- The fuel supplied by the wrapper is sufficient: if any recursion depth
produces a value, the wrapper produces the same value.  Together with
clean_fuel_nil this justifies reading none as non-termination of the
Python recursion. -/
theorem clean_fuel_sufficient (n : Nat) (p q : PurePath) (h : clean_fuel n p = some q) :
    clean_relative_path p = some q := by
  induction n generalizing p with
  | zero => simp [clean_fuel] at h
  | succ n ih =>
    unfold clean_fuel at h
    split at h
    next hp =>
      rw [clean_fuel_nil] at h
      cases h
    next s rest hp =>
      by_cases hs : s = dotdotStr
      · rw [if_pos hs] at h
        have h2 := ih (PurePath.mk rest) h
        show clean_fuel (p.parts.length + 1) p = some q
        rw [hp, List.length_cons, clean_fuel, hp]
        simp only [hs, if_true, ite_true]
        exact h2
      · rw [if_neg hs] at h
        obtain rfl : p = q := Option.some.inj h
        exact clean_relative_path_fixed p s rest hp hs

/-- C5: clean_relative_path is idempotent: composing it with itself (in the
partial-function sense, through Option.bind) gives the same result as one
application; in particular every value it returns is a fixed point. -/
theorem C5_clean_relative_path_idempotent (p : PurePath) :
    (clean_relative_path p).bind clean_relative_path = clean_relative_path p := by
  cases h : clean_relative_path p with
  | none => rfl
  | some q =>
    have h2 : clean_fuel (p.parts.length + 1) p = some q := h
    obtain ⟨s, rest, hq, hs⟩ := clean_fuel_shape (p.parts.length + 1) p q h2
    simp [Option.bind, clean_relative_path_fixed q s rest hq hs]

/-- C6: the claim that clean_relative_path terminates on every input fails
on the path whose single part is the dot-dot segment: no recursion depth
produces a value there, the recursion loops on the empty parts tuple (in
Python, a RecursionError instead of the claimed empty remainder). -/
theorem C6_clean_relative_path_nontermination :
    clean_relative_path (PurePath.mk [dotdotStr]) = none ∧
    ¬ CleanTerminates (PurePath.mk [dotdotStr]) := by
  have hall : ∀ n, clean_fuel n (PurePath.mk [dotdotStr]) = none := by
    intro n
    cases n with
    | zero => rfl
    | succ n => simp [clean_fuel, clean_fuel_nil]
  constructor
  · exact hall _
  · rintro ⟨n, hn⟩
    rw [hall n] at hn
    cases hn

/-! ## Lemmas about UTF-8 decoding and desc_name -/

/-- The ignore decoder agrees with the strict decoder wherever the strict
decoder succeeds: on valid UTF-8 input nothing is dropped. -/
theorem utf8IgnoreAux_eq_of_strict (n : Nat) (bs : List Nat) (cs : List Char)
    (h : utf8StrictAux n bs = some cs) : utf8IgnoreAux n bs = cs := by
  induction n generalizing bs cs with
  | zero =>
    cases bs with
    | nil =>
      simp [utf8StrictAux] at h
      simp [utf8IgnoreAux, h]
    | cons b rest => simp [utf8StrictAux] at h
  | succ n ih =>
    cases bs with
    | nil =>
      simp [utf8StrictAux] at h
      simp [utf8IgnoreAux, h]
    | cons b rest =>
      rw [utf8StrictAux] at h
      rw [utf8IgnoreAux]
      cases hd : utf8DecodeOne b rest with
      | none => rw [hd] at h; simp at h
      | some cr =>
        obtain ⟨c, r⟩ := cr
        rw [hd] at h
        simp only [Option.map_eq_some'] at h
        obtain ⟨cs0, hcs0, rfl⟩ := h
        simp only [hd]
        rw [ih r cs0 hcs0]

theorem utf8Ignore_eq_of_strict (bs : List Nat) (cs : List Char)
    (h : utf8Strict bs = some cs) : utf8Ignore bs = cs :=
  utf8IgnoreAux_eq_of_strict bs.length bs cs h

/-- C7 counterexample: on the byte string 0x66 0xFF the source drops the
invalid byte and yields the one-character string f, while replacing the
invalid sequence (the words of the claim, utf8ReplaceSpec) would yield
f followed by U+FFFD; the two results differ. -/
theorem C7_desc_name_does_not_replace :
    desc_name (mkNameDie fWithInvalidByte) = .ok (some fStr) ∧
    String.mk (utf8ReplaceSpec fWithInvalidByte) = fReplacedStr ∧
    fStr ≠ fReplacedStr := by decide

/-- C7 as amended: desc_name never fails on any byte string (it always
returns a decoded string), and on valid UTF-8 input it agrees with strict
UTF-8 decoding; invalid sequences are ignored (dropped), not replaced. -/
theorem C7_desc_name_decodes_utf8 :
    (∀ bs : List Nat, desc_name (mkNameDie bs) = .ok (some (String.mk (utf8Ignore bs)))) ∧
    (∀ (bs : List Nat) (cs : List Char), utf8Strict bs = some cs →
      desc_name (mkNameDie bs) = .ok (some (String.mk cs))) := by
  constructor
  · intro bs
    simp [desc_name, mkNameDie, List.lookup]
  · intro bs cs h
    simp [desc_name, mkNameDie, List.lookup, utf8Ignore_eq_of_strict bs cs h]

/-- C7 witness: on the concrete valid input ab the amended theorem applies
and yields the decoded string ab. -/
theorem C7_desc_name_decodes_utf8_witness :
    desc_name (mkNameDie abBytes) = .ok (some (String.mk abChars)) :=
  C7_desc_name_decodes_utf8.2 abBytes abChars (by decide)

/-! ## Theorems about desc_file -/

/-- C2: desc_file uses the offset 0 for line-program versions at least 5
and -1 below (the strict, bounds-checked variant); when both the
offset-adjusted file index and the offset-adjusted directory index are in
bounds it returns the looked-up directory path joined with the looked-up
file name. -/
theorem C2_desc_file_resolution (die : DIE) (v : Nat) (fe : FileEntry) (d : List Nat)
    (hattr : die.attributes.lookup dwAtDeclFile = some (AttrValue.nat v))
    (h1 : 0 ≤ lpOffset die.lineProgram + (v : Int))
    (h2 : lpOffset die.lineProgram + (v : Int) < (die.lineProgram.file_entry.length : Int))
    (hfe : die.lineProgram.file_entry[(lpOffset die.lineProgram + (v : Int)).toNat]? = some fe)
    (h3 : 0 ≤ lpOffset die.lineProgram + (fe.dir_index : Int))
    (h4 : lpOffset die.lineProgram + (fe.dir_index : Int) <
      (die.lineProgram.include_directory.length : Int))
    (hd : die.lineProgram.include_directory[(lpOffset die.lineProgram +
      (fe.dir_index : Int)).toNat]? = some d) :
    lpOffset die.lineProgram = (if die.lineProgram.version ≥ 5 then 0 else -1) ∧
    desc_file die = .ok (some (PurePath.div (pathOfBytes d) (pathOfBytes fe.name))) := by
  constructor
  · rfl
  · simp only [desc_file, hattr]
    rw [if_pos ⟨h1, h2⟩]
    simp only [hfe]
    rw [if_pos ⟨h3, h4⟩]
    simp only [hd]

/-- C2 witness: a version-4 program with file index 1 resolves through the
legacy offset -1 to the path /proj/a.c. -/
theorem C2_desc_file_resolution_witness :
    desc_file exC2die = .ok (some exC2path) :=
  ((C2_desc_file_resolution exC2die 1 exC2fe projBytes (by decide) (by decide) (by decide)
    (by decide) (by decide) (by decide) (by decide)).2).trans (by decide)

/-- C4: whenever the offset-adjusted file index is outside the bounds of
file_entries, or it is in bounds but the offset-adjusted directory index of
the fetched file entry is outside the bounds of include_directories,
desc_file fails with indexOutOfRange: it never returns a path. -/
theorem C4_desc_file_index_out_of_range (die : DIE) (v : Nat)
    (hattr : die.attributes.lookup dwAtDeclFile = some (AttrValue.nat v)) :
    (¬ (0 ≤ lpOffset die.lineProgram + (v : Int) ∧
        lpOffset die.lineProgram + (v : Int) < (die.lineProgram.file_entry.length : Int)) →
      desc_file die = .error AnalysisError.indexOutOfRange) ∧
    (∀ fe, die.lineProgram.file_entry[(lpOffset die.lineProgram + (v : Int)).toNat]? = some fe →
      ¬ (0 ≤ lpOffset die.lineProgram + (fe.dir_index : Int) ∧
         lpOffset die.lineProgram + (fe.dir_index : Int) <
           (die.lineProgram.include_directory.length : Int)) →
      desc_file die = .error AnalysisError.indexOutOfRange) := by
  constructor
  · intro hb
    simp only [desc_file, hattr]
    rw [if_neg hb]
  · intro fe hfe hb
    simp only [desc_file, hattr]
    by_cases hfb : 0 ≤ lpOffset die.lineProgram + (v : Int) ∧
        lpOffset die.lineProgram + (v : Int) < (die.lineProgram.file_entry.length : Int)
    · rw [if_pos hfb]
      simp only [hfe]
      rw [if_neg hb]
    · rw [if_neg hfb]

/-- C4 witness: a version-5 program with a single file entry queried at
file index 7 fails with indexOutOfRange. -/
theorem C4_desc_file_index_out_of_range_witness :
    desc_file exC4die = .error AnalysisError.indexOutOfRange :=
  (C4_desc_file_index_out_of_range exC4die 7 (by decide)).1 (by decide)

/-! ## Theorems about get_function_information -/

/-- Structure of an emitted descriptor: a descriptor comes out of
get_function_information only for a subprogram DIE, only with a
successfully decoded truthy name carried into the descriptor, a resolved
file, and present, truthy raw line and address values. -/
theorem gfi_emit_shape (symtab : List SymbolTableEntry) (die : DIE) (bp flt : String)
    (fd : FunctionDescriptor)
    (h : get_function_information symtab die bp flt = .ok (some fd)) :
    die_is_func die = true ∧
    desc_name die = .ok (some fd.name) ∧ fd.name ≠ emptyStr ∧
    (∃ p, desc_file die = .ok (some p)) ∧
    desc_line die = some fd.line ∧ AttrValue.truthy fd.line = true ∧
    desc_addr die = some fd.addr ∧ AttrValue.truthy fd.addr = true := by
  unfold get_function_information at h
  split at h
  case isFalse => simp at h
  case isTrue hfunc =>
    split at h
    case h_1 => simp at h
    case h_2 nameOpt hname =>
      split at h
      case isTrue => simp at h
      case isFalse hflt =>
        split at h
        case h_1 => simp at h
        case h_2 fileOpt hfile =>
          split at h
          case h_2 => simp at h
          case h_1 nm fl ln ad hl ha =>
            split at h
            case isFalse => simp at h
            case isTrue htr =>
              split at h
              case h_1 => simp at h
              case h_2 cleaned hclean =>
                split at h
                case h_1 => simp at h
                case h_2 idx hidx =>
                  simp only [Except.ok.injEq, Option.some.injEq] at h
                  subst h
                  obtain ⟨hne, hlt, hat⟩ := htr
                  exact ⟨hfunc, hname, hne, ⟨fl, hfile⟩, hl, hlt, ha, hat⟩

/-- C3: the strict all-four emission gate: a FunctionDescriptor is emitted
only when name, file, line and address are all resolvable; equivalently,
if any of the four is absent no descriptor is produced for the entry. -/
theorem C3_descriptor_requires_all_four (symtab : List SymbolTableEntry) (die : DIE)
    (bp flt : String) (fd : FunctionDescriptor)
    (h : get_function_information symtab die bp flt = .ok (some fd)) :
    (∃ n, desc_name die = .ok (some n)) ∧ (∃ p, desc_file die = .ok (some p)) ∧
    (∃ l, desc_line die = some l) ∧ (∃ a, desc_addr die = some a) := by
  obtain ⟨-, h1, -, h3, h4, -, h6, -⟩ := gfi_emit_shape symtab die bp flt fd h
  exact ⟨⟨fd.name, h1⟩, h3, ⟨fd.line, h4⟩, ⟨fd.addr, h6⟩⟩

/-- C3 witness: the fully resolvable DIE emits a descriptor, so all four
fields resolve on it. -/
theorem C3_descriptor_requires_all_four_witness :
    (∃ n, desc_name exFullDie = .ok (some n)) ∧
    (∃ p, desc_file exFullDie = .ok (some p)) ∧
    (∃ l, desc_line exFullDie = some l) ∧ (∃ a, desc_addr exFullDie = some a) :=
  C3_descriptor_requires_all_four [exMainSym] exFullDie emptyStr emptyStr exFullFd (by decide)

/-- C9: with an active function-name filter, a subprogram whose decoded
name differs from the filter yields the absent value with no error, for
every symbol table, base path and line program: the name is checked before
file, line and address are resolved. -/
theorem C9_name_filter_short_circuits (symtab : List SymbolTableEntry) (die : DIE)
    (bp flt n : String)
    (hfunc : die_is_func die = true)
    (hflt : flt ≠ emptyStr)
    (hname : desc_name die = .ok (some n))
    (hne : n ≠ flt) :
    get_function_information symtab die bp flt = .ok none := by
  simp only [get_function_information, hfunc, if_true, hname]
  rw [if_pos ⟨hflt, fun hc => hne (Option.some.inj hc)⟩]

/-- C9 witness: a DIE named foo with an out-of-bounds declaring-file index
is filtered out by the filter bar without touching the broken file
resolution. -/
theorem C9_name_filter_short_circuits_witness :
    get_function_information [] exC9die emptyStr barStr = .ok none :=
  C9_name_filter_short_circuits [] exC9die emptyStr barStr fooStr (by decide) (by decide)
    (by decide) (by decide)

/-- C10: the emission gate tests Python truthiness of the decoded values,
not attribute presence: a name decoding to the empty string, or a present
declaring-line or low-address attribute whose raw value is the integer 0,
suppresses the descriptor. -/
theorem C10_emission_gate_is_truthiness (symtab : List SymbolTableEntry) (die : DIE)
    (bp flt : String)
    (h : desc_name die = .ok (some emptyStr) ∨ desc_line die = some (AttrValue.nat 0) ∨
      desc_addr die = some (AttrValue.nat 0)) :
    ∀ fd, get_function_information symtab die bp flt ≠ .ok (some fd) := by
  intro fd hc
  obtain ⟨-, h1, h2, -, h4, h5, h6, h7⟩ := gfi_emit_shape symtab die bp flt fd hc
  rcases h with h | h | h
  · exact h2 (Option.some.inj (Except.ok.inj (h1.symm.trans h)))
  · rw [Option.some.inj (h4.symm.trans h)] at h5
    simp [AttrValue.truthy] at h5
  · rw [Option.some.inj (h6.symm.trans h)] at h7
    simp [AttrValue.truthy] at h7

/-- C10 witness: the DIE whose declaring-line attribute is present with
value 0 emits no descriptor. -/
theorem C10_emission_gate_is_truthiness_witness :
    get_function_information [exMainSym] exC10die emptyStr emptyStr ≠ .ok (some exFullFd) :=
  C10_emission_gate_is_truthiness [exMainSym] exC10die emptyStr emptyStr
    (Or.inr (Or.inl (by decide))) exFullFd

/-! ## Theorems about the symbol table lookup and the unit walker -/

/-- C1: the duplicate check of get_function_symtab_index tests Python
truthiness of the found variable, and the integer 0 is falsy: with
matching function entries at table indices 0 and 1 the lookup silently
returns the LAST match instead of failing, while the same two matches
preceded by a non-function entry do raise ambiguousSymbolMatch. -/
theorem C1_ambiguity_check_misses_index_zero :
    get_function_symtab_index [funcSymF, funcSymF] fStr (AttrValue.nat 4096) = .ok (some 1) ∧
    get_function_symtab_index [notypeSymF, funcSymF, funcSymF] fStr (AttrValue.nat 4096) =
      .error AnalysisError.ambiguousSymbolMatch := by decide

/-- C8: a compilation unit whose top-level DIE lacks the defining
DW_AT_name attribute makes desc_cu fail with missingRequiredAttribute,
whatever the filters, base path and symbol table. -/
theorem C8_missing_unit_name_is_fatal (symtab : List SymbolTableEntry) (cu : CompileUnit)
    (bp fcu ffn : String)
    (h : cu.top_die.attributes.lookup dwAtName = none) :
    desc_cu symtab cu bp fcu ffn = .error AnalysisError.missingRequiredAttribute := by
  simp only [desc_cu, h]

/-- C8 witness: the unit with an attribute-less top DIE fails with
missingRequiredAttribute. -/
theorem C8_missing_unit_name_is_fatal_witness :
    desc_cu [] exC8cu emptyStr emptyStr emptyStr = .error AnalysisError.missingRequiredAttribute :=
  C8_missing_unit_name_is_fatal [] exC8cu emptyStr emptyStr emptyStr (by decide)
